import Mathlib

/-!
Verification of the minikv storage and coordination core against its
natural-language specification.

The development is a shallow embedding of the Rust sources:
* Rust byte slices (`&[u8]`, `Vec<u8>`) are `List Nat` with each element a
  byte value; a Rust `String` is represented by its UTF-8 byte sequence.
* Machine integers (`u32`, `u64`) are `Nat`; truncation is explicit where
  the code performs it (serialization to a fixed number of bytes).
* Fallible Rust functions returning `Result` become `Except`.
* External crates (`blake3`, `crc32fast`, `lz4`) are not part of the
  repository; they are modelled from the specification where the spec pins
  their behaviour (CRC32 IEEE), or by explicit computable stand-ins whose
  only relied-upon property is determinism (BLAKE3, LZ4).
-/

namespace MiniKV

/-! ## Byte-level primitives -/

/-- Little-endian serialization of a natural number into `w` bytes
(embeds Rust `u32::to_le_bytes` / `u64::to_le_bytes`, with the explicit
truncation those fixed-width writes perform). -/
def toLe : Nat → Nat → List Nat
  | 0, _ => []
  | w + 1, n => n % 256 :: toLe w (n / 256)

/-- Little-endian deserialization (embeds `u32::from_le_bytes` /
`u64::from_le_bytes`). -/
def fromLe : List Nat → Nat
  | [] => 0
  | b :: rest => b % 256 + 256 * fromLe rest

/-- Embeds `Read::read_exact` into `n`-byte buffers over a remaining byte
list: returns the bytes read and the rest, or `none` on a short read
(`UnexpectedEof`). -/
def readExact (n : Nat) (bs : List Nat) : Option (List Nat × List Nat) :=
  if n ≤ bs.length then some (bs.take n, bs.drop n) else none

/-! ## UTF-8 validity

Embeds the validity check performed by Rust `String::from_utf8`
(RFC 3629 well-formedness over the byte sequence). -/

/-- A UTF-8 continuation byte (`0x80..=0xBF`). -/
def utf8Cont (b : Nat) : Bool := 0x80 ≤ b && b ≤ 0xBF

/-- RFC 3629 well-formedness of a byte sequence, as checked by Rust
`String::from_utf8`. -/
def utf8Valid : List Nat → Bool
  | [] => true
  | b :: rest =>
    if b ≤ 0x7F then utf8Valid rest
    else if 0xC2 ≤ b && b ≤ 0xDF then
      match rest with
      | c1 :: r => utf8Cont c1 && utf8Valid r
      | [] => false
    else if b = 0xE0 then
      match rest with
      | c1 :: c2 :: r => (0xA0 ≤ c1 && c1 ≤ 0xBF) && utf8Cont c2 && utf8Valid r
      | _ => false
    else if (0xE1 ≤ b && b ≤ 0xEC) || b = 0xEE || b = 0xEF then
      match rest with
      | c1 :: c2 :: r => utf8Cont c1 && utf8Cont c2 && utf8Valid r
      | _ => false
    else if b = 0xED then
      match rest with
      | c1 :: c2 :: r => (0x80 ≤ c1 && c1 ≤ 0x9F) && utf8Cont c2 && utf8Valid r
      | _ => false
    else if b = 0xF0 then
      match rest with
      | c1 :: c2 :: c3 :: r =>
        (0x90 ≤ c1 && c1 ≤ 0xBF) && utf8Cont c2 && utf8Cont c3 && utf8Valid r
      | _ => false
    else if 0xF1 ≤ b && b ≤ 0xF3 then
      match rest with
      | c1 :: c2 :: c3 :: r =>
        utf8Cont c1 && utf8Cont c2 && utf8Cont c3 && utf8Valid r
      | _ => false
    else if b = 0xF4 then
      match rest with
      | c1 :: c2 :: c3 :: r =>
        (0x80 ≤ c1 && c1 ≤ 0x8F) && utf8Cont c2 && utf8Cont c3 && utf8Valid r
      | _ => false
    else false

/-! ## CRC32

`common::utils::crc32` delegates to the external `crc32fast` crate.
Modelled from the spec: §6.5 pins it as "the standard IEEE polynomial
(0xEDB88320 reversed)"; the model is the canonical bitwise CRC32 with
that polynomial, on bytes taken mod 256 and a 32-bit register. -/

/-- One bit-step of the CRC32 register. -/
def crcBit (c : Nat) : Nat :=
  if c % 2 = 1 then Nat.xor (c / 2) 0xEDB88320 else c / 2

/-- Eight bit-steps (one input byte). -/
def crcByte (c : Nat) : Nat :=
  crcBit (crcBit (crcBit (crcBit (crcBit (crcBit (crcBit (crcBit c)))))))

/-- Modelled from the spec: CRC32-IEEE of a byte sequence
(`crc32fast::hash`, pinned by spec §6.5). -/
def crc32 (data : List Nat) : Nat :=
  Nat.xor (data.foldl (fun c b => crcByte (Nat.xor c (b % 256))) 0xFFFFFFFF)
    0xFFFFFFFF

/-! ## BLAKE3 and LZ4 stand-ins

The `blake3` and `lz4` crates are external to the repository.
The spec treats BLAKE3 as an opaque deterministic 256-bit content digest
rendered as 64 lowercase hex characters, and LZ4 as an opaque compressor
used only when it shrinks the value. -/

/-- Byte value of a lowercase hex digit. -/
def hexDigit (n : Nat) : Nat := if n < 10 then 48 + n else 87 + n

/-- Hex rendering of a byte list (each byte becomes two hex-digit bytes). -/
def hexOfBytes (bs : List Nat) : List Nat :=
  bs.foldr (fun b acc => hexDigit (b % 256 / 16) :: hexDigit (b % 16) :: acc) []

/-- Modelled from the spec: the 32 raw digest bytes of BLAKE3
(external `blake3` crate). A computable deterministic stand-in; the
development relies only on the digest being a function of the input. -/
def blake3Bytes (data : List Nat) : List Nat :=
  toLe 32 ((data.foldl (fun a b => a * 16777619 + b + 1)
    0x6a09e667f3bcc908) % 2 ^ 256)

/-- Modelled from the spec: `common::hash::blake3_hash`, the BLAKE3 digest
of `data` rendered as a 64-character lowercase hex string (returned as its
UTF-8 bytes). -/
def blake3_hash (data : List Nat) : List Nat := hexOfBytes (blake3Bytes data)

/-- Modelled from the spec: `lz4::block::compress` (external crate). The
stand-in returns the input unchanged, so the "compressed" form is never
strictly smaller and `write_blob_to_segment` always takes its uncompressed
fallback branch; every claim below exercises `CompressionMode::None`,
where the code never calls LZ4 at all. -/
def lz4Compress (value : List Nat) : List Nat := value

/-- Modelled from the spec: `lz4::block::decompress` with an expected
decompressed size (external crate); stand-in inverse of `lz4Compress`. -/
def lz4Decompress (value : List Nat) (origLen : Nat) : Option (List Nat) :=
  if value.length = origLen then some value else none

/-! ## Index (`src/volume/index.rs`)

The in-memory index is a Rust `HashMap<String, BlobLocation>`. It is
embedded as an association list whose order stands for the map's
(unspecified) iteration order; `insert` replaces in place or appends,
matching `HashMap::insert` up to that order. -/

/-- Embeds `index::BlobLocation`; `blake3` is the UTF-8 byte sequence of
the Rust hex `String`. -/
structure BlobLocation where
  shard : Nat
  offset : Nat
  size : Nat
  blake3 : List Nat
  expiresAt : Option Nat
deriving DecidableEq, Repr

/-- Embeds `index::Index`: an association list standing for the
`HashMap<String, BlobLocation>` in iteration order. -/
abbrev Index := List (List Nat × BlobLocation)

/-- Embeds `Index::insert` (`HashMap::insert`): replace the binding if the
key is present, else add it. -/
def insertIdx : Index → List Nat → BlobLocation → Index
  | [], k, loc => [(k, loc)]
  | (k', l') :: rest, k, loc =>
    if k' = k then (k, loc) :: rest else (k', l') :: insertIdx rest k loc

/-- Embeds `Index::get` (`HashMap::get`). -/
def lookupIdx : Index → List Nat → Option BlobLocation
  | [], _ => none
  | (k', l') :: rest, k => if k' = k then some l' else lookupIdx rest k

/-- Embeds `Index::remove` (`HashMap::remove`), keeping only the
resulting map. -/
def removeIdx (idx : Index) (k : List Nat) : Index :=
  idx.filter (fun e => e.1 ≠ k)

/-- Embeds `Index::is_expired` at an explicit current time `now`
(the code reads `SystemTime::now()` in milliseconds). -/
def isExpired (idx : Index) (k : List Nat) (now : Nat) : Bool :=
  match lookupIdx idx k with
  | some loc =>
    match loc.expiresAt with
    | some expiresAt => decide (now > expiresAt)
    | none => false
  | none => false

/-- Embeds `Index::get_if_valid`. -/
def getIfValid (idx : Index) (k : List Nat) (now : Nat) : Option BlobLocation :=
  if isExpired idx k now then none else lookupIdx idx k

/-! ### Snapshot serialization (`Index::save_snapshot` / `load_snapshot`) -/

/-- Snapshot magic `"KVINDEX3"`. -/
def SNAPSHOT_MAGIC : List Nat := [0x4B, 0x56, 0x49, 0x4E, 0x44, 0x45, 0x58, 0x33]

/-- Prior-version magic `"KVINDEX2"` (no TTL field). -/
def SNAPSHOT_MAGIC_V2 : List Nat := [0x4B, 0x56, 0x49, 0x4E, 0x44, 0x45, 0x58, 0x32]

/-- Bytes `Index::save_snapshot` writes for one entry. -/
def encodeSnapEntry (k : List Nat) (loc : BlobLocation) : List Nat :=
  toLe 4 k.length ++ k ++ toLe 8 loc.shard ++ toLe 8 loc.offset ++
    toLe 8 loc.size ++ toLe 4 loc.blake3.length ++ loc.blake3 ++
    toLe 8 (loc.expiresAt.getD 0)

/-- Entry section of the snapshot, in iteration order. -/
def encodeSnapEntries : Index → List Nat
  | [] => []
  | (k, loc) :: rest => encodeSnapEntry k loc ++ encodeSnapEntries rest

/-- Embeds `Index::save_snapshot`: the full byte content written to
`index.snap`. -/
def saveSnapshot (idx : Index) : List Nat :=
  SNAPSHOT_MAGIC ++ toLe 8 idx.length ++ encodeSnapEntries idx

/-- Snapshot-loading errors (`Error::Corrupted` and I/O). -/
inductive SnapErr where
  | corrupted (msg : String)
  | io
deriving DecidableEq, Repr

/-- Embeds the entry-reading loop of `Index::load_snapshot` (`for _ in
0..num_entries`), accumulating into `idx`. -/
def parseSnapEntries (hasTtl : Bool) : Nat → List Nat → Index → Except SnapErr Index
  | 0, _, idx => .ok idx
  | n + 1, bs, idx =>
    match readExact 4 bs with
    | none => .error .io
    | some (keyLenB, r1) =>
      match readExact (fromLe keyLenB) r1 with
      | none => .error .io
      | some (keyB, r2) =>
        if utf8Valid keyB then
          match readExact 8 r2 with
          | none => .error .io
          | some (shardB, r3) =>
            match readExact 8 r3 with
            | none => .error .io
            | some (offsetB, r4) =>
              match readExact 8 r4 with
              | none => .error .io
              | some (sizeB, r5) =>
                match readExact 4 r5 with
                | none => .error .io
                | some (hashLenB, r6) =>
                  match readExact (fromLe hashLenB) r6 with
                  | none => .error .io
                  | some (hashB, r7) =>
                    if utf8Valid hashB then
                      if hasTtl then
                        match readExact 8 r7 with
                        | none => .error .io
                        | some (expB, r8) =>
                          let ts := fromLe expB
                          parseSnapEntries hasTtl n r8
                            (insertIdx idx keyB
                              { shard := fromLe shardB, offset := fromLe offsetB,
                                size := fromLe sizeB, blake3 := hashB,
                                expiresAt := if ts = 0 then none else some ts })
                      else
                        parseSnapEntries hasTtl n r7
                          (insertIdx idx keyB
                            { shard := fromLe shardB, offset := fromLe offsetB,
                              size := fromLe sizeB, blake3 := hashB,
                              expiresAt := none })
                    else .error (.corrupted "Invalid UTF-8 in hash")
        else .error (.corrupted "Invalid UTF-8 in key")

/-- Embeds `Index::load_snapshot` on the byte content of the snapshot
file. -/
def loadSnapshot (bs : List Nat) : Except SnapErr Index :=
  match readExact 8 bs with
  | none => .error .io
  | some (magic, r1) =>
    let hasTtl := magic = SNAPSHOT_MAGIC
    if magic ≠ SNAPSHOT_MAGIC_V2 ∧ ¬hasTtl then
      .error (.corrupted "Invalid snapshot magic")
    else
      match readExact 8 r1 with
      | none => .error .io
      | some (countB, r2) => parseSnapEntries hasTtl (fromLe countB) r2 []

/-- Well-formedness of one index entry as produced by the Rust code:
keys and digests are UTF-8 `String`s whose lengths fit `u32`, the numeric
fields fit `u64`, and a present expiration is a positive `u64`. -/
def WFEntry (k : List Nat) (loc : BlobLocation) : Prop :=
  utf8Valid k = true ∧ k.length < 2 ^ 32 ∧
  loc.shard < 2 ^ 64 ∧ loc.offset < 2 ^ 64 ∧ loc.size < 2 ^ 64 ∧
  utf8Valid loc.blake3 = true ∧ loc.blake3.length < 2 ^ 32 ∧
  ∀ t ∈ loc.expiresAt, 0 < t ∧ t < 2 ^ 64

/-- Concrete index exercising the `expires_at = Some(0)` corner of the
snapshot format: one entry for key `"k"` with expiration timestamp 0. -/
def snapZeroIdx : Index :=
  [([107], { shard := 0, offset := 0, size := 0, blake3 := [97, 98],
             expiresAt := some 0 })]

/-- The same entry as `snapZeroIdx` but with no expiration: what the
snapshot actually reloads, since 0 is the on-disk sentinel for "no
expiration". -/
def snapZeroIdxLoaded : Index :=
  [([107], { shard := 0, offset := 0, size := 0, blake3 := [97, 98],
             expiresAt := none })]

/-! ## Write-ahead log (`src/volume/wal.rs`) -/

/-- WAL record magic `"WAL1"`. -/
def WAL_MAGIC : List Nat := [0x57, 0x41, 0x4C, 0x31]

/-- Embeds `wal::WalOp`; keys and values are byte lists (a Rust `String`
is its UTF-8 bytes). -/
inductive WalOp where
  | put (key value : List Nat)
  | delete (key : List Nat)
deriving DecidableEq, Repr

/-- Embeds `wal::WalEntry`. -/
structure WalEntry where
  sequence : Nat
  op : WalOp
deriving DecidableEq, Repr

/-- Key of a WAL operation. -/
def WalOp.key : WalOp → List Nat
  | .put k _ => k
  | .delete k => k

/-- Everything `Wal::write_entry` writes after the magic and before the
CRC; the CRC is computed over exactly these bytes. -/
def encodeWalPayload (e : WalEntry) : List Nat :=
  match e.op with
  | .put k v => toLe 8 e.sequence ++ [1] ++ toLe 4 k.length ++ toLe 4 v.length ++ k ++ v
  | .delete k => toLe 8 e.sequence ++ [2] ++ toLe 4 k.length ++ toLe 4 0 ++ k

/-- Embeds `Wal::write_entry`: the full framed record
`MAGIC | payload | crc32(payload)`. -/
def encodeWalEntry (e : WalEntry) : List Nat :=
  WAL_MAGIC ++ encodeWalPayload e ++ toLe 4 (crc32 (encodeWalPayload e))

/-- Byte content of a WAL file holding the given records in order. -/
def encodeWal : List WalEntry → List Nat
  | [] => []
  | e :: rest => encodeWalEntry e ++ encodeWal rest

/-- WAL reading errors (`Error::Wal` and I/O errors). -/
inductive WalError where
  | wal (msg : String)
  | io
deriving DecidableEq, Repr

/-- Embeds `Wal::read_entry_internal`: parse one record off the front of
the remaining bytes. `ok none` is end-of-file at a record boundary
(`UnexpectedEof` on the magic read); a short read anywhere else is an I/O
error, and bad magic, a non-UTF-8 key, a CRC mismatch or an unknown op
code are `Error::Wal`. -/
def readEntry (bs : List Nat) : Except WalError (Option (WalEntry × List Nat)) :=
  match readExact 4 bs with
  | none => .ok none
  | some (magic, r1) =>
    if magic ≠ WAL_MAGIC then .error (.wal "Invalid WAL magic")
    else
      match readExact 8 r1 with
      | none => .error .io
      | some (seqB, r2) =>
        match readExact 1 r2 with
        | none => .error .io
        | some (opB, r3) =>
          match readExact 4 r3 with
          | none => .error .io
          | some (keyLenB, r4) =>
            match readExact 4 r4 with
            | none => .error .io
            | some (valLenB, r5) =>
              match readExact (fromLe keyLenB) r5 with
              | none => .error .io
              | some (keyB, r6) =>
                if ¬ utf8Valid keyB then .error (.wal "Invalid UTF-8 in key")
                else
                  match (if opB = [1] then
                      (readExact (fromLe valLenB) r6).map (fun p => (some p.1, p.2))
                    else some (none, r6)) with
                  | none => .error .io
                  | some (value?, r7) =>
                    match readExact 4 r7 with
                    | none => .error .io
                    | some (crcB, r8) =>
                      if crc32 (seqB ++ opB ++ keyLenB ++ valLenB ++ keyB ++ value?.getD []) ≠
                          fromLe crcB then
                        .error (.wal "Checksum mismatch")
                      else
                        match opB, value? with
                        | [1], some v =>
                          .ok (some ({ sequence := fromLe seqB, op := .put keyB v }, r8))
                        | [2], _ =>
                          .ok (some ({ sequence := fromLe seqB, op := .delete keyB }, r8))
                        | _, _ => .error (.wal "Unknown op code")

/-- The `Wal::replay` loop, with explicit fuel. The loop visits one record
per iteration; on `Ok(None)` (clean end of file) or on any read error
(torn tail) it breaks. Fuel equal to the byte length of the input always
suffices because a successfully parsed record consumes at least its four
magic bytes. -/
def replayFuel : Nat → List Nat → List WalEntry
  | 0, _ => []
  | fuel + 1, bs =>
    match readEntry bs with
    | .ok (some (e, rest)) => e :: replayFuel fuel rest
    | _ => []

/-- Embeds `Wal::replay` with a visitor that collects the entries it is
invoked on. The code swallows read errors (it logs and breaks) and
returns `Ok(())`, so the embedded result is always `ok` of the visited
list. -/
def walReplay (bs : List Nat) : Except WalError (List WalEntry) :=
  .ok (replayFuel bs.length bs)

/-- A byte sequence whose first parse attempt yields no record: a short
read at the magic, bad magic, a short read mid-record, a CRC failure, or
any other `read_entry_internal` error. -/
def isTornTail (bs : List Nat) : Bool :=
  match readEntry bs with
  | .ok (some _) => false
  | _ => true

/-- Well-formedness of a WAL record as produced by `append_put` /
`append_delete`: the sequence fits `u64`, the key is a UTF-8 `String`
whose byte length fits `u32`, and a put value's length fits `u32`. -/
def WFWalEntry (e : WalEntry) : Prop :=
  e.sequence < 2 ^ 64 ∧
  match e.op with
  | .put k v => utf8Valid k = true ∧ k.length < 2 ^ 32 ∧ v.length < 2 ^ 32
  | .delete k => utf8Valid k = true ∧ k.length < 2 ^ 32

/-! ## Blob store (`src/volume/blob.rs`) -/

/-- Record magic `"BLOB"` for raw values. -/
def BLOB_MAGIC : List Nat := [0x42, 0x4C, 0x4F, 0x42]

/-- Record magic `"BLOC"` for LZ4-compressed values. -/
def BLOB_MAGIC_COMPRESSED : List Nat := [0x42, 0x4C, 0x4F, 0x43]

/-- `SEGMENT_SIZE` (64 MiB). -/
def SEGMENT_SIZE : Nat := 64 * 1024 * 1024

/-- `MAX_SEGMENTS`. -/
def MAX_SEGMENTS : Nat := 1000

/-- `COMPRESSION_THRESHOLD`. -/
def COMPRESSION_THRESHOLD : Nat := 128

/-- Embeds `blob::CompressionMode`. -/
inductive CompressionMode where
  | none
  | lz4
deriving DecidableEq, Repr

/-- Blob-store errors: `Corrupted`, `ChecksumMismatch` (the code formats
the two CRC values as hex strings; the model carries the numbers),
`Internal`, and I/O errors. -/
inductive BlobErr where
  | corrupted (msg : String)
  | checksumMismatch (expected actual : Nat)
  | internal (msg : String)
  | io
deriving DecidableEq, Repr

/-- The compression decision of `write_blob_to_segment`: the bytes
actually stored and whether the compressed magic is used. -/
def writeValueAndFlag (compression : CompressionMode) (value : List Nat) :
    List Nat × Bool :=
  match compression with
  | .lz4 =>
    if COMPRESSION_THRESHOLD ≤ value.length then
      let compressed := lz4Compress value
      if compressed.length < value.length then (compressed, true) else (value, false)
    else (value, false)
  | .none => (value, false)

/-- A framed blob record with an explicit checksum field (used to state
what happens when the stored CRC does not match). -/
def encodeBlobRecordWithCrc (isCompressed : Bool) (key wv : List Nat)
    (origLen crcVal : Nat) : List Nat :=
  (if isCompressed then BLOB_MAGIC_COMPRESSED else BLOB_MAGIC) ++
    toLe 4 key.length ++ toLe 8 wv.length ++ toLe 8 origLen ++ key ++ wv ++
    toLe 4 crcVal

/-- The bytes `write_blob_to_segment` writes for one record:
`MAGIC | key_len(u32) | stored_val_len(u64) | original_val_len(u64) |
key | stored value | crc32` where the CRC covers everything after the
magic and before itself. -/
def encodeBlobRecord (compression : CompressionMode) (key value : List Nat) :
    List Nat :=
  let p := writeValueAndFlag compression value
  encodeBlobRecordWithCrc p.2 key p.1 value.length
    (crc32 (toLe 4 key.length ++ toLe 8 p.1.length ++ toLe 8 value.length ++
      key ++ p.1))

/-- On-disk segments: an association list from segment number to the
segment file's byte content. -/
abbrev Segments := List (Nat × List Nat)

/-- Content of a segment file, if the file exists. -/
def lookupSeg : Segments → Nat → Option (List Nat)
  | [], _ => Option.none
  | (s, c) :: rest, seg => if s = seg then some c else lookupSeg rest seg

/-- Replace a segment's content, creating the file if absent
(`OpenOptions::create(true)`). -/
def updateSeg : Segments → Nat → List Nat → Segments
  | [], seg, content => [(seg, content)]
  | (s, c) :: rest, seg, content =>
    if s = seg then (seg, content) :: rest else (s, c) :: updateSeg rest seg content

/-- Embeds a `seek(Start(offset))` followed by a buffered write: bytes
before the offset are kept, a seek past end-of-file reads back as zeros,
the written bytes overwrite in place, and any bytes after the written
region are kept. -/
def writeAt (content : List Nat) (offset : Nat) (bytes : List Nat) : List Nat :=
  content.take offset ++ List.replicate (offset - content.length) 0 ++ bytes ++
    content.drop (offset + bytes.length)

/-- Embeds `BlobStore::write_blob_to_segment`: returns the
`BlobLocation` (note it records the BLAKE3 of the uncompressed value and
no TTL), the total bytes written
(`MAGIC(4) + KEY_LEN(4) + VAL_LEN(8) + ORIG_LEN(8) + KEY + VALUE + CHECKSUM(4)`),
and the updated segment map. -/
def writeBlobToSegment (compression : CompressionMode) (segs : Segments)
    (segment offset : Nat) (key value : List Nat) :
    BlobLocation × Nat × Segments :=
  let p := writeValueAndFlag compression value
  let record := encodeBlobRecordWithCrc p.2 key p.1 value.length
    (crc32 (toLe 4 key.length ++ toLe 8 p.1.length ++ toLe 8 value.length ++
      key ++ p.1))
  let oldContent := (lookupSeg segs segment).getD []
  let bytesWritten := 4 + 4 + 8 + 8 + key.length + p.1.length + 4
  ({ shard := segment, offset := offset, size := value.length,
     blake3 := blake3_hash value, expiresAt := Option.none },
   bytesWritten,
   updateSeg segs segment (writeAt oldContent offset record))

/-- Embeds `blob::BlobStore`. The Bloom filter is probabilistic with no
false negatives over the inserted key hashes; it is modelled as the exact
set of keys inserted (a false positive merely falls through to the index
lookup, which is observationally identical in `get`). `walBytes` is the
byte content of `wal.log` and `nextSequence` the WAL's next sequence
number. -/
structure BlobStore where
  index : Index
  bloom : List (List Nat)
  walBytes : List Nat
  nextSequence : Nat
  currentSegment : Nat
  currentOffset : Nat
  segments : Segments
  compression : CompressionMode

/-- Embeds `BlobStore::write_blob`. Rust mutates `self` before returning
an error, so the embedding returns the result together with the post
state: rotate when the current offset strictly exceeds `SEGMENT_SIZE`;
after rotating, fail with `Internal("Max segments reached")` when the new
segment number reaches `MAX_SEGMENTS`; otherwise write the record and
advance the offset. -/
def writeBlob (st : BlobStore) (key value : List Nat) :
    Except BlobErr BlobLocation × BlobStore :=
  if SEGMENT_SIZE < st.currentOffset then
    let st1 := { st with currentSegment := st.currentSegment + 1, currentOffset := 0 }
    if MAX_SEGMENTS ≤ st1.currentSegment then
      (.error (.internal "Max segments reached"), st1)
    else
      let w := writeBlobToSegment st1.compression st1.segments st1.currentSegment
        st1.currentOffset key value
      (.ok w.1, { st1 with segments := w.2.2, currentOffset := w.1.offset + w.2.1 })
  else
    let w := writeBlobToSegment st.compression st.segments st.currentSegment
      st.currentOffset key value
    (.ok w.1, { st with segments := w.2.2, currentOffset := w.1.offset + w.2.1 })

/-- Embeds `BlobStore::put_with_ttl` at an explicit current time `now`:
append a PUT record to the WAL, set the bloom bit, write the blob record
(propagating its error), attach `expires_at = now + ttl` when a TTL is
given, and insert the location into the index. -/
def putWithTtl (st : BlobStore) (key value : List Nat) (ttlMs : Option Nat)
    (now : Nat) : Except BlobErr Unit × BlobStore :=
  let entry : WalEntry := { sequence := st.nextSequence, op := .put key value }
  let st1 := { st with walBytes := st.walBytes ++ encodeWalEntry entry,
                       nextSequence := st.nextSequence + 1,
                       bloom := key :: st.bloom }
  match writeBlob st1 key value with
  | (.error e, st2) => (.error e, st2)
  | (.ok loc, st2) =>
    let loc' := match ttlMs with
      | some ttl => { loc with expiresAt := some (now + ttl) }
      | Option.none => loc
    (.ok (), { st2 with index := insertIdx st2.index key loc' })

/-- Embeds `BlobStore::put` (`put_with_ttl` with no TTL; the current time
is then irrelevant). -/
def BlobStore.put (st : BlobStore) (key value : List Nat) :
    Except BlobErr Unit × BlobStore :=
  putWithTtl st key value Option.none 0

/-- Embeds `BlobStore::delete`: append a DELETE record to the WAL and
remove the key from the index (the segment record stays). -/
def BlobStore.delete (st : BlobStore) (key : List Nat) : BlobStore :=
  let entry : WalEntry := { sequence := st.nextSequence, op := .delete key }
  { st with walBytes := st.walBytes ++ encodeWalEntry entry,
            nextSequence := st.nextSequence + 1,
            index := removeIdx st.index key }

/-- Embeds `BlobStore::read_blob`: missing segment file reads as absent;
otherwise seek to the indexed offset, check the magic (raw or
compressed), read the framed record, verify the CRC32
(`ChecksumMismatch` on disagreement), and decompress when the compressed
magic was found. The `blake3` and `size` fields of the location are never
consulted. -/
def readBlob (segs : Segments) (loc : BlobLocation) :
    Except BlobErr (Option (List Nat)) :=
  match lookupSeg segs loc.shard with
  | Option.none => .ok Option.none
  | some content =>
    match readExact 4 (content.drop loc.offset) with
    | Option.none => .error .io
    | some (magic, r1) =>
      if magic ≠ BLOB_MAGIC ∧ magic ≠ BLOB_MAGIC_COMPRESSED then
        .error (.corrupted "Invalid blob magic")
      else
        match readExact 4 r1 with
        | Option.none => .error .io
        | some (keyLenB, r2) =>
          match readExact 8 r2 with
          | Option.none => .error .io
          | some (valLenB, r3) =>
            match readExact 8 r3 with
            | Option.none => .error .io
            | some (origLenB, r4) =>
              match readExact (fromLe keyLenB) r4 with
              | Option.none => .error .io
              | some (keyB, r5) =>
                match readExact (fromLe valLenB) r5 with
                | Option.none => .error .io
                | some (value, r6) =>
                  match readExact 4 r6 with
                  | Option.none => .error .io
                  | some (checksumB, _) =>
                    if crc32 (keyLenB ++ valLenB ++ origLenB ++ keyB ++ value) ≠
                        fromLe checksumB then
                      .error (.checksumMismatch (fromLe checksumB)
                        (crc32 (keyLenB ++ valLenB ++ origLenB ++ keyB ++ value)))
                    else if magic = BLOB_MAGIC_COMPRESSED then
                      match lz4Decompress value (fromLe origLenB) with
                      | some d => .ok (some d)
                      | Option.none => .error (.corrupted "LZ4 decompression failed")
                    else .ok (some value)

/-- Embeds `BlobStore::get` at an explicit current time: bloom check,
TTL-respecting index lookup, then `read_blob`. -/
def BlobStore.get (st : BlobStore) (key : List Nat) (now : Nat) :
    Except BlobErr (Option (List Nat)) :=
  if ¬ st.bloom.contains key then .ok Option.none
  else
    match getIfValid st.index key now with
    | some loc => readBlob st.segments loc
    | Option.none => .ok Option.none

/-- Concrete store for C1: one key `"k"` whose indexed location carries
the digest `"xx"`, which is not the BLAKE3 of the stored value `[1]`. -/
def c1Store : BlobStore :=
  { index := [([107],
      { shard := 0, offset := 0, size := 1, blake3 := [120, 120],
        expiresAt := Option.none })],
    bloom := [[107]], walBytes := [], nextSequence := 0,
    currentSegment := 0, currentOffset := 0,
    segments := [(0, encodeBlobRecord .none [107] [1])],
    compression := .none }

/-- Concrete store for C9: empty store whose write cursor stands exactly
at `SEGMENT_SIZE` in segment 0. -/
def c9Store : BlobStore :=
  { index := [], bloom := [], walBytes := [], nextSequence := 0,
    currentSegment := 0, currentOffset := SEGMENT_SIZE, segments := [],
    compression := .none }

/-- Concrete store for C10: 999 segments used, cursor past the segment
boundary, so the next put must rotate into the forbidden segment 1000. -/
def c10Store : BlobStore :=
  { index := [], bloom := [], walBytes := [], nextSequence := 0,
    currentSegment := 999, currentOffset := SEGMENT_SIZE + 1, segments := [],
    compression := .none }

/-! ## Recovery (`BlobStore::open`, `rebuild_index_from_segments`,
`scan_segment`) -/

/-- The `scan_segment` loop with explicit fuel (one record per iteration;
fuel equal to the byte length suffices since a parsed record consumes at
least its four magic bytes). End-of-file or an unrecognized magic breaks
the loop; a short read mid-record is an I/O error. The key is taken
lossily (`String::from_utf8_lossy` never fails; the byte embedding keeps
the raw bytes), the value bytes are skipped with a seek, the checksum is
read but NOT verified, and the index entry records the segment number,
running offset, the ORIGINAL length as `size`, and — as in the source —
the BLAKE3 of the KEY (not of the value) as the digest, with no TTL. -/
def scanFuel : Nat → Nat → List Nat → Nat → Index → List (List Nat) →
    Except BlobErr (Index × List (List Nat))
  | 0, _, _, _, idx, bloom => .ok (idx, bloom)
  | fuel + 1, segment, bs, offset, idx, bloom =>
    match readExact 4 bs with
    | Option.none => .ok (idx, bloom)
    | some (magic, r1) =>
      if magic ≠ BLOB_MAGIC ∧ magic ≠ BLOB_MAGIC_COMPRESSED then .ok (idx, bloom)
      else
        match readExact 4 r1 with
        | Option.none => .error .io
        | some (keyLenB, r2) =>
          match readExact 8 r2 with
          | Option.none => .error .io
          | some (valLenB, r3) =>
            match readExact 8 r3 with
            | Option.none => .error .io
            | some (origLenB, r4) =>
              match readExact (fromLe keyLenB) r4 with
              | Option.none => .error .io
              | some (keyB, r5) =>
                match readExact 4 (r5.drop (fromLe valLenB)) with
                | Option.none => .error .io
                | some (_, r6) =>
                  scanFuel fuel segment r6
                    (offset + (4 + 4 + 8 + 8 + fromLe keyLenB + fromLe valLenB + 4))
                    (insertIdx idx keyB
                      { shard := segment, offset := offset,
                        size := fromLe origLenB, blake3 := blake3_hash keyB,
                        expiresAt := Option.none })
                    (keyB :: bloom)

/-- Embeds `BlobStore::scan_segment` on a segment file's content. -/
def scanSegment (segment : Nat) (content : List Nat) (idx : Index)
    (bloom : List (List Nat)) : Except BlobErr (Index × List (List Nat)) :=
  scanFuel content.length segment content 0 idx bloom

/-- Embeds `BlobStore::rebuild_index_from_segments`. The source walks the
two-level directory tree in `fs::read_dir` order, which is unspecified;
the association-list order of `segs` stands for that enumeration order. -/
def rebuildIndexFromSegments : Segments → Index → List (List Nat) →
    Except BlobErr (Index × List (List Nat))
  | [], idx, bloom => .ok (idx, bloom)
  | (s, c) :: rest, idx, bloom =>
    match scanSegment s c idx bloom with
    | .error e => .error e
    | .ok (idx1, bloom1) => rebuildIndexFromSegments rest idx1 bloom1

/-- Errors surfaced by `BlobStore::open`. -/
inductive OpenErr where
  | snap (e : SnapErr)
  | blob (e : BlobErr)
deriving DecidableEq, Repr

/-- Embeds the index/bloom reconstruction of `BlobStore::open`
(blob.rs:74-121): ① load the snapshot if the snapshot file exists, else
start empty; ② replay the WAL — each PUT only sets the key's bloom bit,
each DELETE removes the key from the index; ③ when there was no snapshot,
rebuild the index by scanning every segment (re-inserting every surviving
record, including keys deleted in step ②); when there was one, set bloom
bits for its keys. -/
def openStoreIndex (snapshot : Option (List Nat)) (walBytes : List Nat)
    (segs : Segments) : Except OpenErr (Index × List (List Nat)) :=
  match (match snapshot with
         | some bs => loadSnapshot bs
         | Option.none => .ok []) with
  | .error e => .error (.snap e)
  | .ok idx0 =>
    let replayed := (replayFuel walBytes.length walBytes).foldl
      (fun (p : Index × List (List Nat)) e =>
        match e.op with
        | .put k _ => (p.1, k :: p.2)
        | .delete k => (removeIdx p.1 k, p.2)) (idx0, [])
    if snapshot.isNone then
      match rebuildIndexFromSegments segs replayed.1 replayed.2 with
      | .error e => .error (.blob e)
      | .ok r => .ok r
    else .ok (replayed.1, replayed.1.map (·.1) ++ replayed.2)

/-- Modelled from the spec: the recovery order of §4.3.5, which is
missing from the code — scan every segment FIRST (later records for the
same key override earlier), THEN replay the WAL dropping each deleted
key (PUT records need no action: their segment records, if any, were
scanned in step 1). -/
def specRecoverIndex (walBytes : List Nat) (segs : Segments) :
    Except OpenErr Index :=
  match rebuildIndexFromSegments segs [] [] with
  | .error e => .error (.blob e)
  | .ok (idx1, _) =>
    .ok ((replayFuel walBytes.length walBytes).foldl
      (fun idx e =>
        match e.op with
        | .delete k => removeIdx idx k
        | .put _ _ => idx) idx1)

/-- WAL content for C2: `put("k", [1])` then `delete("k")`. -/
def c2Wal : List Nat :=
  encodeWal [{ sequence := 0, op := .put [107] [1] },
             { sequence := 1, op := .delete [107] }]

/-- Segment content for C2: the surviving PUT record of `"k"`. -/
def c2Segs : Segments := [(0, encodeBlobRecord .none [107] [1])]

/-! ## Compaction directory swap (`BlobStore::compact`, blob.rs:231-233) -/

/-- A filesystem path as its components. -/
abbrev FsPath := List String

/-- `p` is a strict path-prefix of `q` (so `q` names something strictly
inside the directory `p`). -/
def strictUnder (p q : FsPath) : Bool :=
  p.length < q.length && q.take p.length = p

/-- Filesystem rename errors (POSIX `EINVAL`). -/
inductive FsErr where
  | invalidArgument
deriving DecidableEq, Repr

/-- Modelled from the spec: the directory rename of §4.3.4 is performed
with `std::fs::rename` (external to the repository), i.e. POSIX
`rename(2)`, which fails with `EINVAL` when "an attempt was made to make
a directory a subdirectory of itself" — when the new path lies strictly
inside the old one. Otherwise the whole subtree moves. The filesystem is
a list of existing paths. -/
def renameFs (old new : FsPath) (fs : List FsPath) :
    Except FsErr (List FsPath) :=
  if strictUnder old new then .error .invalidArgument
  else .ok (fs.map (fun p =>
    if p.take old.length = old then new ++ p.drop old.length else p))

/-- Embeds the swap step of `BlobStore::compact` (blob.rs:231-233):
`fs::rename(&self.data_path, &backup_path)` followed by
`fs::rename(&temp_path, &self.data_path)`, where
`backup_path = data_path/compact_backup` and
`temp_path = data_path/compact_temp` are both INSIDE `data_path`. -/
def compactSwap (dataPath : FsPath) (fs : List FsPath) :
    Except FsErr (List FsPath) :=
  match renameFs dataPath (dataPath ++ ["compact_backup"]) fs with
  | .error e => .error e
  | .ok fs1 => renameFs (dataPath ++ ["compact_temp"]) dataPath fs1

/-! ## Raft vote handling (`src/coordinator/raft_node.rs`) -/

/-- Embeds `common::raft::LogEntry`. -/
structure RaftLogEntry where
  term : Nat
  index : Nat
  data : List Nat
deriving DecidableEq, Repr

/-- Embeds `common::raft::VoteRequest`. -/
structure VoteRequest where
  term : Nat
  candidateId : String
  lastLogIndex : Nat
  lastLogTerm : Nat
deriving DecidableEq, Repr

/-- Embeds `common::raft::VoteResponse`. -/
structure VoteResponse where
  term : Nat
  voteGranted : Bool
deriving DecidableEq, Repr

/-- The persistent state `handle_request_vote` touches (`term`,
`voted_for`) together with the node's log (which the handler never
reads). -/
structure RaftState where
  term : Nat
  votedFor : Option String
  log : List RaftLogEntry
deriving DecidableEq, Repr

/-- Embeds `RaftNode::handle_request_vote` (raft_node.rs:143-168): reject
below-term requests; adopt a higher term and clear the vote; then grant
iff `voted_for` is `None` or already the candidate. The candidate's
`last_log_index` / `last_log_term` are never consulted. -/
def handleRequestVote (st : RaftState) (req : VoteRequest) :
    VoteResponse × RaftState :=
  if req.term < st.term then ({ term := st.term, voteGranted := false }, st)
  else
    let st1 := if st.term < req.term then
        { st with term := req.term, votedFor := Option.none }
      else st
    if st1.votedFor = Option.none ∨ st1.votedFor = some req.candidateId then
      ({ term := st1.term, voteGranted := true },
       { st1 with votedFor := some req.candidateId })
    else ({ term := st1.term, voteGranted := false }, st1)

/-- Modelled from the spec: "the candidate's log is at least as
up-to-date as ours (compare by `last_log_term` then `last_log_index`)",
with the receiver's last term/index taken from its log's last entry
(0 for an empty log, as elsewhere in the source). This check is absent
from the code. -/
def logUpToDate (req : VoteRequest) (log : List RaftLogEntry) : Prop :=
  let lastTerm := (log.getLast?.map (fun e => e.term)).getD 0
  let lastIndex := (log.getLast?.map (fun e => e.index)).getD 0
  lastTerm < req.lastLogTerm ∨
    (req.lastLogTerm = lastTerm ∧ lastIndex ≤ req.lastLogIndex)

/-- Receiver for C4: current term 1, no vote cast, log with last entry of
term 5 and index 3. -/
def c4St : RaftState :=
  { term := 1, votedFor := Option.none,
    log := [{ term := 5, index := 3, data := [] }] }

/-- C4 request: an equal-term candidate whose log (term 0, index 0) is
strictly less up-to-date than the receiver's. -/
def c4Req : VoteRequest :=
  { term := 1, candidateId := "c", lastLogIndex := 0, lastLogTerm := 0 }

/-! ## Volume gRPC 2PC (`src/volume/grpc.rs`) -/

/-- Embeds `grpc::UploadState`. -/
structure UploadState where
  key : List Nat
  expectedSize : Nat
  expectedBlake3 : List Nat
  data : List Nat
deriving DecidableEq, Repr

/-- The prepared-uploads table (`HashMap<String, UploadState>` as an
association list). -/
abbrev Uploads := List (String × UploadState)

/-- `HashMap::insert` on the uploads table. -/
def insertUpload : Uploads → String → UploadState → Uploads
  | [], id, st => [(id, st)]
  | (id', st') :: rest, id, st =>
    if id' = id then (id, st) :: rest else (id', st') :: insertUpload rest id st

/-- `HashMap::remove` (keeping the removed state, as `commit` does). -/
def lookupUpload : Uploads → String → Option UploadState
  | [], _ => Option.none
  | (id', st') :: rest, id => if id' = id then some st' else lookupUpload rest id

/-- The uploads table after removing an id. -/
def removeUpload (ups : Uploads) (id : String) : Uploads :=
  ups.filter (fun e => e.1 ≠ id)

/-- Embeds `proto::PrepareRequest`. -/
structure PrepareRequest where
  uploadId : String
  key : List Nat
  expectedSize : Nat
  expectedBlake3 : List Nat
deriving DecidableEq, Repr

/-- Embeds `proto::PrepareResponse`. -/
structure PrepareResponse where
  ok : Bool
  error : String
deriving DecidableEq, Repr

/-- Embeds `proto::CommitRequest`. -/
structure CommitRequest where
  uploadId : String
  key : List Nat
deriving DecidableEq, Repr

/-- Embeds `proto::CommitResponse`. -/
structure CommitResponse where
  ok : Bool
  error : String
deriving DecidableEq, Repr

/-- Embeds `VolumeGrpcService::prepare` (grpc.rs:50-87): read the store's
stats (read-only), record an `UploadState` with an EMPTY buffer
(`Vec::with_capacity` holds no bytes) under the upload id, and reply
`ok = true` unconditionally — no size or hash verification happens here
and the blob store is not modified. -/
def prepare (uploads : Uploads) (store : BlobStore) (req : PrepareRequest) :
    PrepareResponse × Uploads × BlobStore :=
  let state : UploadState :=
    { key := req.key, expectedSize := req.expectedSize,
      expectedBlake3 := req.expectedBlake3, data := [] }
  ({ ok := true, error := "" }, insertUpload uploads req.uploadId state, store)

/-- Rendering of a blob-store error for a gRPC reply (`e.to_string()`,
abstracting the `Display` impl). -/
def blobErrMessage : BlobErr → String
  | .corrupted m => "Corrupted: " ++ m
  | .checksumMismatch e a =>
    "Checksum mismatch: expected " ++ toString e ++ ", actual " ++ toString a
  | .internal m => "Internal error: " ++ m
  | .io => "IO error"

/-- Embeds `VolumeGrpcService::commit` (grpc.rs:89-161): take the upload
state out of the table (missing → not-ok); verify the buffered size
against `expected_size`, then the BLAKE3 of the buffered bytes against
`expected_blake3`, replying not-ok without touching the store on either
mismatch; only then `put` into the blob store. -/
def commit (uploads : Uploads) (store : BlobStore) (req : CommitRequest) :
    CommitResponse × Uploads × BlobStore :=
  match lookupUpload uploads req.uploadId with
  | Option.none => ({ ok := false, error := "Upload not found" }, uploads, store)
  | some state =>
    let uploads1 := removeUpload uploads req.uploadId
    if state.data.length ≠ state.expectedSize then
      ({ ok := false,
         error := "Size mismatch: expected " ++ toString state.expectedSize ++
           ", got " ++ toString state.data.length }, uploads1, store)
    else if blake3_hash state.data ≠ state.expectedBlake3 then
      ({ ok := false, error := "Hash mismatch" }, uploads1, store)
    else
      match store.put state.key state.data with
      | (.ok _, store1) => ({ ok := true, error := "" }, uploads1, store1)
      | (.error e, store1) =>
        ({ ok := false, error := blobErrMessage e }, uploads1, store1)

/-- The upload state `prepare` records for C5's request: the expectations
with an empty byte buffer. -/
def c5State : UploadState :=
  { key := [107], expectedSize := 5, expectedBlake3 := [97], data := [] }

/-- An empty blob store, used by the C5 concrete instances. -/
def emptyStore : BlobStore :=
  { index := [], bloom := [], walBytes := [], nextSequence := 0,
    currentSegment := 0, currentOffset := 0, segments := [],
    compression := .none }

/-- A prepare request for C5 whose (empty) buffered bytes can satisfy
neither the size nor the digest expectation. -/
def c5Req : PrepareRequest :=
  { uploadId := "u1", key := [107], expectedSize := 5, expectedBlake3 := [97] }

/-! ## Placement (`src/coordinator/placement.rs`, `src/common/hash.rs`) -/

/-- Embeds `common::utils::NodeState`. -/
inductive NodeState where
  | alive
  | suspect
  | dead
  | draining
deriving DecidableEq, Repr

/-- Embeds `NodeState::is_healthy` (`matches!(self, NodeState::Alive)`). -/
def NodeState.isHealthy : NodeState → Bool
  | .alive => true
  | _ => false

/-- Embeds `metadata::VolumeMetadata`; strings are their UTF-8 bytes. -/
structure VolumeMetadata where
  volumeId : List Nat
  address : List Nat
  grpcAddress : List Nat
  state : NodeState
  shards : List Nat
  totalKeys : Nat
  totalBytes : Nat
  freeBytes : Nat
  lastHeartbeat : Nat
deriving DecidableEq, Repr

/-- Modelled from the spec: the HRW weight
`blake3(key ∥ node)[0..8] as u64` (external `blake3` crate) — a
deterministic computable 64-bit stand-in; the claims below rely only on
it being a function of the concatenated bytes. -/
def hrwWeight (bytes : List Nat) : Nat :=
  (bytes.foldl (fun a b => a * 131 + b + 1) 7) % 2 ^ 64

/-- Insert into a weight-descending list, after existing entries of equal
weight (the stability of Rust's `sort_by`). -/
def insertDesc (x : List Nat × Nat) : List (List Nat × Nat) → List (List Nat × Nat)
  | [] => [x]
  | y :: rest => if y.2 < x.2 then x :: y :: rest else y :: insertDesc x rest

/-- Stable sort by weight, descending (embeds
`weights.sort_by(|a, b| b.1.cmp(&a.1))`). -/
def sortDesc : List (List Nat × Nat) → List (List Nat × Nat)
  | [] => []
  | x :: rest => insertDesc x (sortDesc rest)

/-- Embeds `common::hash::hrw_hash`: weigh every node by
`hash(key ∥ node)`, sort by weight descending, return the node names. -/
def hrw_hash (key : List Nat) (nodes : List (List Nat)) : List (List Nat) :=
  (sortDesc (nodes.map (fun node => (node, hrwWeight (key ++ node))))).map
    (fun p => p.1)

/-- Embeds `common::hash::select_replicas`: the top `n` of the HRW
ordering. -/
def select_replicas (key : List Nat) (nodes : List (List Nat)) (n : Nat) :
    List (List Nat) :=
  (hrw_hash key nodes).take n

/-- Placement errors (`NoHealthyVolumes`,
`InsufficientReplicas{needed, available}`). -/
inductive PlaceErr where
  | noHealthyVolumes
  | insufficientReplicas (needed available : Nat)
deriving DecidableEq, Repr

/-- The healthy volume ids of a volume list, in order. -/
def healthyIds (volumes : List VolumeMetadata) : List (List Nat) :=
  (volumes.filter (fun v => v.state.isHealthy)).map (fun v => v.volumeId)

/-- Embeds `PlacementManager::select_volumes` with replication factor
`replicas`: error when the list is empty or no volume is healthy; select
the top-R healthy volumes by HRW; error `InsufficientReplicas` when fewer
than `replicas` came back. -/
def select_volumes (replicas : Nat) (key : List Nat)
    (volumes : List VolumeMetadata) : Except PlaceErr (List (List Nat)) :=
  if volumes.isEmpty then .error .noHealthyVolumes
  else
    let healthy := healthyIds volumes
    if healthy.isEmpty then .error .noHealthyVolumes
    else
      let selected := select_replicas key healthy replicas
      if selected.length < replicas then
        .error (.insufficientReplicas replicas selected.length)
      else .ok selected

/-- A healthy volume with the given id (other fields at their defaults),
for the C6 concrete instances. -/
def mkVolume (id : List Nat) : VolumeMetadata :=
  { volumeId := id, address := [], grpcAddress := [], state := .alive,
    shards := [], totalKeys := 0, totalBytes := 0, freeBytes := 0,
    lastHeartbeat := 0 }

theorem toLe_length (w n : Nat) : (toLe w n).length = w := by
  induction w generalizing n with
  | zero => rfl
  | succ w ih => simp [toLe, ih]

theorem fromLe_toLe (w n : Nat) (h : n < 256 ^ w) : fromLe (toLe w n) = n := by
  induction w generalizing n with
  | zero =>
    simp [toLe, fromLe]
    omega
  | succ w ih =>
    have hlt : n / 256 < 256 ^ w := by
      rw [Nat.div_lt_iff_lt_mul (by norm_num)]
      calc n < 256 ^ (w + 1) := h
        _ = 256 ^ w * 256 := by rw [pow_succ]
    simp [toLe, fromLe, ih _ hlt, Nat.mod_mod_of_dvd]
    omega

theorem readExact_append (xs rest : List Nat) :
    readExact xs.length (xs ++ rest) = some (xs, rest) := by
  simp [readExact]

theorem readExact_length {n : Nat} {bs xs rest : List Nat}
    (h : readExact n bs = some (xs, rest)) :
    n ≤ bs.length ∧ rest.length = bs.length - n := by
  unfold readExact at h
  split at h
  · simp only [Option.some.injEq, Prod.mk.injEq] at h
    constructor
    · assumption
    · rw [← h.2, List.length_drop]
  · exact absurd h (by simp)

theorem readExact_shrink {n : Nat} {bs xs rest : List Nat}
    (h : readExact n bs = some (xs, rest)) (hn : 0 < n) :
    rest.length < bs.length := by
  obtain ⟨h1, h2⟩ := readExact_length h
  omega

theorem crcBit_lt {c : Nat} (h : c < 2 ^ 32) : crcBit c < 2 ^ 32 := by
  unfold crcBit
  split
  · exact Nat.xor_lt_two_pow (by omega) (by norm_num)
  · omega

theorem crcByte_lt {c : Nat} (h : c < 2 ^ 32) : crcByte c < 2 ^ 32 := by
  unfold crcByte
  exact crcBit_lt (crcBit_lt (crcBit_lt (crcBit_lt (crcBit_lt (crcBit_lt
    (crcBit_lt (crcBit_lt h)))))))

theorem crc32_lt (data : List Nat) : crc32 data < 2 ^ 32 := by
  unfold crc32
  have h : ∀ (l : List Nat) (c : Nat), c < 2 ^ 32 →
      l.foldl (fun c b => crcByte (Nat.xor c (b % 256))) c < 2 ^ 32 := by
    intro l
    induction l with
    | nil => intro c hc; exact hc
    | cons b rest ih =>
      intro c hc
      exact ih _ (crcByte_lt (Nat.xor_lt_two_pow hc
        (lt_of_lt_of_le (Nat.mod_lt _ (by norm_num)) (by norm_num))))
  exact Nat.xor_lt_two_pow (h data _ (by norm_num)) (by norm_num)

theorem blake3_hash_length (data : List Nat) :
    (blake3_hash data).length = 64 := by
  unfold blake3_hash blake3Bytes
  generalize (_ % 2 ^ 256 : Nat) = n
  have h : ∀ (bs : List Nat), (hexOfBytes bs).length = 2 * bs.length := by
    intro bs
    induction bs with
    | nil => rfl
    | cons b rest ih => simp [hexOfBytes] at ih ⊢; omega
  rw [h, toLe_length]

theorem readExact_toLe (w n : Nat) (rest : List Nat) :
    readExact w (toLe w n ++ rest) = some (toLe w n, rest) := by
  have h := readExact_append (toLe w n) rest
  rwa [toLe_length] at h

theorem expires_roundtrip {e : Option Nat} (h : ∀ t ∈ e, 0 < t ∧ t < 2 ^ 64) :
    (if fromLe (toLe 8 (e.getD 0)) = 0 then none else some (fromLe (toLe 8 (e.getD 0)))) = e := by
  cases e with
  | none => simp [fromLe_toLe 8 0 (by norm_num)]
  | some t =>
    obtain ⟨ht0, ht⟩ := h t rfl
    simp [fromLe_toLe 8 t ht]
    omega

theorem parseSnapEntries_step (n : Nat) (k : List Nat) (loc : BlobLocation)
    (rest : List Nat) (idx : Index) (h : WFEntry k loc) :
    parseSnapEntries true (n + 1) (encodeSnapEntry k loc ++ rest) idx =
      parseSnapEntries true n rest (insertIdx idx k loc) := by
  obtain ⟨hk, hklen, hsh, hoff, hsz, hh, hhlen, he⟩ := h
  simp only [encodeSnapEntry, List.append_assoc, parseSnapEntries,
    readExact_toLe, fromLe_toLe 4 k.length hklen, readExact_append, hk,
    fromLe_toLe 4 loc.blake3.length hhlen, hh, if_true,
    fromLe_toLe 8 loc.shard hsh, fromLe_toLe 8 loc.offset hoff,
    fromLe_toLe 8 loc.size hsz]
  rw [expires_roundtrip he]

theorem parseSnapEntries_encode (es : Index) (idx : Index)
    (h : ∀ e ∈ es, WFEntry e.1 e.2) :
    parseSnapEntries true es.length (encodeSnapEntries es) idx =
      .ok (es.foldl (fun a e => insertIdx a e.1 e.2) idx) := by
  induction es generalizing idx with
  | nil => rfl
  | cons e es ih =>
    have he := h e (by simp)
    simp only [List.length_cons, encodeSnapEntries]
    rw [parseSnapEntries_step _ _ _ _ _ he]
    exact ih _ (fun e' h' => h e' (by simp [h']))

theorem insertIdx_fresh (acc : Index) (k : List Nat) (loc : BlobLocation)
    (h : lookupIdx acc k = none) : insertIdx acc k loc = acc ++ [(k, loc)] := by
  induction acc with
  | nil => rfl
  | cons e rest ih =>
    obtain ⟨k', l'⟩ := e
    unfold lookupIdx at h
    unfold insertIdx
    split at h
    · exact absurd h (by simp)
    · next hne => rw [if_neg hne, ih h]; rfl

theorem lookupIdx_append_none (a b : Index) (k : List Nat)
    (h : lookupIdx a k = none) : lookupIdx (a ++ b) k = lookupIdx b k := by
  induction a with
  | nil => rfl
  | cons e rest ih =>
    obtain ⟨k', l'⟩ := e
    simp only [lookupIdx, List.cons_append] at h ⊢
    split at h
    · exact absurd h (by simp)
    · next hne => rw [if_neg hne]; exact ih h

theorem foldl_insertIdx_fresh (es : Index) (acc : Index)
    (hnd : (es.map (·.1)).Nodup)
    (hdisj : ∀ e ∈ es, lookupIdx acc e.1 = none) :
    es.foldl (fun a e => insertIdx a e.1 e.2) acc = acc ++ es := by
  induction es generalizing acc with
  | nil => simp
  | cons e es ih =>
    obtain ⟨k, loc⟩ := e
    simp only [List.map_cons, List.nodup_cons] at hnd
    simp only [List.foldl_cons]
    rw [insertIdx_fresh acc k loc (hdisj (k, loc) (by simp))]
    rw [ih _ (by exact hnd.2)]
    · simp
    · intro e' he'
      rw [lookupIdx_append_none _ _ _ (hdisj e' (by simp [he']))]
      have hne : e'.1 ≠ k := by
        intro hc
        exact hnd.1 (by rw [← hc]; exact List.mem_map_of_mem _ he')
      simp [lookupIdx, Ne.symm hne]

/-- C7 (counterexample): the snapshot round-trip does not preserve an
entry with `expires_at = Some(0)` — `save_snapshot` serializes it as the
`0` sentinel and `load_snapshot` reads it back as `None`. -/
theorem C7_snapshot_roundtrip_counterexample :
    loadSnapshot (saveSnapshot snapZeroIdx) = .ok snapZeroIdxLoaded ∧
      snapZeroIdxLoaded ≠ snapZeroIdx := by
  constructor
  · rfl
  · decide

/-- C7 (amended): for every index whose keys are distinct and whose
entries are well-formed — in particular every present `expires_at` is a
positive timestamp, excluding the `Some(0)` corner that the 0-sentinel
encoding conflates with `None` — `save_snapshot` followed by
`load_snapshot` yields exactly the same entries (identical key, shard,
offset, size, blake3 and expires_at), in iteration order. -/
theorem C7_snapshot_roundtrip (es : Index)
    (hnd : (es.map (·.1)).Nodup) (hlen : es.length < 2 ^ 64)
    (hwf : ∀ e ∈ es, WFEntry e.1 e.2) :
    loadSnapshot (saveSnapshot es) = .ok es := by
  unfold saveSnapshot loadSnapshot
  simp only [List.append_assoc]
  rw [show ∀ rest, readExact 8 (SNAPSHOT_MAGIC ++ rest) = some (SNAPSHOT_MAGIC, rest)
    from fun rest => by simpa using readExact_append SNAPSHOT_MAGIC rest]
  simp only [readExact_toLe, ne_eq, not_true_eq_false, and_false, if_false,
    fromLe_toLe 8 es.length hlen, decide_True]
  rw [parseSnapEntries_encode es [] hwf]
  rw [foldl_insertIdx_fresh es [] hnd (fun e _ => rfl)]
  rfl

/-- C7 (witness): the amended round-trip at a concrete two-entry index
with a TTL-free entry and a positive-TTL entry. -/
theorem C7_snapshot_roundtrip_witness :
    loadSnapshot (saveSnapshot
      [([107], { shard := 1, offset := 2, size := 3, blake3 := [97],
                 expiresAt := none }),
       ([106], { shard := 4, offset := 5, size := 6, blake3 := [98],
                 expiresAt := some 7 })]) =
      .ok [([107], { shard := 1, offset := 2, size := 3, blake3 := [97],
                     expiresAt := none }),
           ([106], { shard := 4, offset := 5, size := 6, blake3 := [98],
                     expiresAt := some 7 })] := by
  apply C7_snapshot_roundtrip
  · decide
  · norm_num
  · intro e he
    simp only [List.mem_cons, List.not_mem_nil, or_false] at he
    rcases he with h | h <;> subst h <;>
      exact ⟨by decide, by norm_num, by norm_num, by norm_num, by norm_num,
        by decide, by norm_num,
        by intro t ht; simp [Option.mem_def] at ht; all_goals omega⟩

theorem readExact_wal_magic (rest : List Nat) :
    readExact 4 (WAL_MAGIC ++ rest) = some (WAL_MAGIC, rest) := by
  simpa using readExact_append WAL_MAGIC rest

theorem readExact_cons1 (b : Nat) (rest : List Nat) :
    readExact 1 (b :: rest) = some ([b], rest) := by
  simp [readExact]

theorem fromLe_toLe_crc (data : List Nat) :
    fromLe (toLe 4 (crc32 data)) = crc32 data :=
  fromLe_toLe _ _ (lt_of_lt_of_le (crc32_lt data) (by norm_num))

theorem readEntry_encode (e : WalEntry) (rest : List Nat) (h : WFWalEntry e) :
    readEntry (encodeWalEntry e ++ rest) = .ok (some (e, rest)) := by
  obtain ⟨seq, op⟩ := e
  obtain ⟨hseq, hop⟩ := h
  cases op with
  | put k v =>
    obtain ⟨hk, hklen, hvlen⟩ := hop
    repeat simp only [readEntry, encodeWalEntry, encodeWalPayload, List.append_assoc,
      List.cons_append, List.nil_append, List.singleton_append, readExact_wal_magic,
      readExact_toLe, readExact_cons1, fromLe_toLe 8 seq hseq,
      fromLe_toLe 4 k.length hklen, fromLe_toLe 4 v.length hvlen,
      fromLe_toLe_crc, readExact_append, hk, ne_eq, not_true_eq_false,
      if_false, Bool.not_true, Option.map_some', Option.getD_some, if_true]
  | delete k =>
    obtain ⟨hk, hklen⟩ := hop
    repeat simp only [readEntry, encodeWalEntry, encodeWalPayload, List.append_assoc,
      List.cons_append, List.nil_append, List.singleton_append, readExact_wal_magic,
      readExact_toLe, readExact_cons1, fromLe_toLe 8 seq hseq,
      fromLe_toLe 4 k.length hklen, fromLe_toLe_crc, readExact_append, hk,
      ne_eq, not_true_eq_false, if_false, Bool.not_true, Option.getD_none,
      List.append_nil, (show ([2] : List Nat) ≠ [1] by decide), if_true]

theorem replayFuel_torn (bs : List Nat) (h : isTornTail bs = true) (fuel : Nat) :
    replayFuel fuel bs = [] := by
  cases fuel with
  | zero => rfl
  | succ n =>
    unfold isTornTail at h
    unfold replayFuel
    split
    · next heq => rw [heq] at h; simp at h
    · rfl

theorem replayFuel_encode (es : List WalEntry) (tail : List Nat) (fuel : Nat)
    (hwf : ∀ e ∈ es, WFWalEntry e) (ht : isTornTail tail = true)
    (hfuel : es.length ≤ fuel) :
    replayFuel fuel (encodeWal es ++ tail) = es := by
  induction es generalizing fuel with
  | nil => exact replayFuel_torn tail ht fuel
  | cons e es ih =>
    cases fuel with
    | zero => simp at hfuel
    | succ f =>
      rw [show encodeWal (e :: es) ++ tail = encodeWalEntry e ++ (encodeWal es ++ tail) by
        simp [encodeWal]]
      have hstep : replayFuel (f + 1) (encodeWalEntry e ++ (encodeWal es ++ tail)) =
          e :: replayFuel f (encodeWal es ++ tail) := by
        rw [replayFuel, readEntry_encode e _ (hwf e (by simp))]
      rw [hstep, ih f (fun e' h' => hwf e' (by simp [h'])) (by simpa using hfuel)]

theorem encodeWal_length_ge (es : List WalEntry) :
    es.length ≤ (encodeWal es).length := by
  induction es with
  | nil => simp [encodeWal]
  | cons e es ih =>
    have h4 : 4 ≤ (encodeWalEntry e).length := by
      simp [encodeWalEntry, WAL_MAGIC]
    simp only [encodeWal, List.length_append, List.length_cons]
    omega

/-- C8 (confirmed): for every WAL file consisting of well-formed records
followed by a torn tail (short read, bad magic, CRC mismatch, or any
other unparsable bytes), `replay` invokes the visitor on exactly the
well-formed records before the corruption, in file order, and returns
success — the tail is treated as unwritten. -/
theorem C8_wal_replay_torn_tail (es : List WalEntry) (tail : List Nat)
    (hwf : ∀ e ∈ es, WFWalEntry e) (ht : isTornTail tail = true) :
    walReplay (encodeWal es ++ tail) = .ok es := by
  unfold walReplay
  rw [replayFuel_encode es tail _ hwf ht]
  have h1 := encodeWal_length_ge es
  simp only [List.length_append]
  omega

/-- C8 (witness): replay of a file holding one PUT record followed by a
single stray magic byte (a torn tail via short read) visits exactly that
record and succeeds. -/
theorem C8_wal_replay_torn_tail_witness :
    walReplay (encodeWal [{ sequence := 0, op := .put [107] [1] }] ++ [0x57]) =
      .ok [{ sequence := 0, op := .put [107] [1] }] := by
  apply C8_wal_replay_torn_tail
  · intro e he
    simp only [List.mem_cons, List.not_mem_nil, or_false] at he
    subst he
    exact ⟨by norm_num, by decide, by norm_num, by norm_num⟩
  · decide

theorem readExact_blob_magic (rest : List Nat) :
    readExact 4 (BLOB_MAGIC ++ rest) = some (BLOB_MAGIC, rest) := by
  simpa using readExact_append BLOB_MAGIC rest

theorem readExact_toLe_nil (w n : Nat) :
    readExact w (toLe w n) = some (toLe w n, []) := by
  have h := readExact_append (toLe w n) []
  rwa [toLe_length, List.append_nil] at h

theorem readBlob_withCrc (key value d : List Nat) (s sz c : Nat) (e : Option Nat)
    (hklen : key.length < 2 ^ 32) (hvlen : value.length < 2 ^ 64)
    (hc : c < 2 ^ 32) :
    readBlob [(s, encodeBlobRecordWithCrc false key value value.length c)]
      { shard := s, offset := 0, size := sz, blake3 := d, expiresAt := e } =
      if crc32 (toLe 4 key.length ++ toLe 8 value.length ++
          toLe 8 value.length ++ key ++ value) = c then .ok (some value)
      else .error (.checksumMismatch c
        (crc32 (toLe 4 key.length ++ toLe 8 value.length ++
          toLe 8 value.length ++ key ++ value))) := by
  have hc' : c < 256 ^ 4 := by
    calc c < 2 ^ 32 := hc
      _ = 256 ^ 4 := by norm_num
  repeat simp only [readBlob, encodeBlobRecordWithCrc, lookupSeg,
    Bool.false_eq_true, if_false, if_true, List.append_assoc, List.cons_append,
    List.nil_append, List.singleton_append, List.drop_zero, eq_self_iff_true,
    readExact_blob_magic, readExact_toLe, readExact_append,
    fromLe_toLe 4 key.length hklen, fromLe_toLe 8 value.length hvlen,
    fromLe_toLe 4 c hc', ne_eq, not_true_eq_false, and_false, false_and,
    ite_not, readExact_toLe_nil,
    (show BLOB_MAGIC ≠ BLOB_MAGIC_COMPRESSED by decide)]

/-- C1 (amended): `get` on an indexed key reads the framed record at the
indexed location and verifies only the CRC32 frame checksum: (a) when the
record's CRC is intact, `get` returns the stored value bytes whatever
BLAKE3 digest the index entry holds — the digest is never consulted; (b)
when the stored CRC disagrees with the recomputed one, `read_blob`
returns `ChecksumMismatch`. -/
theorem C1_get_verifies_crc_not_blake3 :
    (∀ key value d : List Nat, ∀ s sz now : Nat, ∀ st : BlobStore,
      st.bloom.contains key = true →
      lookupIdx st.index key =
        some { shard := s, offset := 0, size := sz, blake3 := d,
               expiresAt := Option.none } →
      st.segments = [(s, encodeBlobRecord .none key value)] →
      key.length < 2 ^ 32 → value.length < 2 ^ 64 →
      BlobStore.get st key now = .ok (some value)) ∧
    (∀ key value d : List Nat, ∀ s sz c : Nat, ∀ e : Option Nat,
      key.length < 2 ^ 32 → value.length < 2 ^ 64 → c < 2 ^ 32 →
      crc32 (toLe 4 key.length ++ toLe 8 value.length ++
        toLe 8 value.length ++ key ++ value) ≠ c →
      readBlob [(s, encodeBlobRecordWithCrc false key value value.length c)]
        { shard := s, offset := 0, size := sz, blake3 := d, expiresAt := e } =
        .error (.checksumMismatch c
          (crc32 (toLe 4 key.length ++ toLe 8 value.length ++
            toLe 8 value.length ++ key ++ value)))) := by
  constructor
  · intro key value d s sz now st hbloom hlook hsegs hklen hvlen
    have hrec : readBlob [(s, encodeBlobRecord .none key value)]
        { shard := s, offset := 0, size := sz, blake3 := d,
          expiresAt := Option.none } = .ok (some value) := by
      rw [show encodeBlobRecord .none key value =
        encodeBlobRecordWithCrc false key value value.length
          (crc32 (toLe 4 key.length ++ toLe 8 value.length ++
            toLe 8 value.length ++ key ++ value)) from rfl]
      rw [readBlob_withCrc key value d s sz _ Option.none hklen hvlen (crc32_lt _)]
      rw [if_pos rfl]
    unfold BlobStore.get getIfValid isExpired
    rw [hbloom, hlook, hsegs]
    simp [hrec]
  · intro key value d s sz c e hklen hvlen hc hne
    rw [readBlob_withCrc key value d s sz c e hklen hvlen hc, if_neg hne]

set_option maxRecDepth 100000 in
/-- C1 (counterexample): `get` returns the value bytes even though the
BLAKE3 digest stored in the index entry (`"xx"`, not even a 64-character
digest) differs from the BLAKE3 of the returned bytes — no
corruption/checksum error is raised for the digest mismatch. -/
theorem C1_counterexample :
    BlobStore.get c1Store [107] 0 = .ok (some [1]) ∧
      blake3_hash [1] ≠ [120, 120] := by
  constructor
  · rfl
  · decide

/-- C1 (witness): part (a) of the amended theorem applied at the concrete
store `c1Store`: an intact record read back through `get` returns its
value with an arbitrary digest in the index entry. -/
theorem C1_witness :
    BlobStore.get c1Store [107] 0 = .ok (some [1]) :=
  C1_get_verifies_crc_not_blake3.1 [107] [1] [120, 120] 0 1 0 c1Store
    rfl rfl rfl (by norm_num) (by norm_num)

/-- C9 (amended): a put rotates to a fresh segment only when the current
offset STRICTLY exceeds `SEGMENT_SIZE`; with the offset at or below
`SEGMENT_SIZE` — in particular exactly at it — the record is written into
the current segment at the current offset, and on rotation (below the
`MAX_SEGMENTS` cap) it is written at offset 0 of segment N+1. -/
theorem C9_rotation (st : BlobStore) (key value : List Nat) :
    (st.currentOffset ≤ SEGMENT_SIZE →
      (writeBlob st key value).1.map (fun l => (l.shard, l.offset)) =
        .ok (st.currentSegment, st.currentOffset)) ∧
    (SEGMENT_SIZE < st.currentOffset → st.currentSegment + 1 < MAX_SEGMENTS →
      (writeBlob st key value).1.map (fun l => (l.shard, l.offset)) =
        .ok (st.currentSegment + 1, 0)) := by
  constructor
  · intro h
    unfold writeBlob
    rw [if_neg (by omega)]
    rfl
  · intro h1 h2
    unfold writeBlob
    rw [if_pos h1, if_neg (by simp; omega)]
    rfl

/-- C9 (counterexample): with the current segment offset exactly at
`SEGMENT_SIZE`, the next put does NOT rotate — the record is placed at
offset `SEGMENT_SIZE` of segment 0, not at offset 0 of segment 1 as the
claim states (`write_blob` rotates only on `current_offset > SEGMENT_SIZE`). -/
theorem C9_counterexample :
    (writeBlob c9Store [107] [1]).1.map (fun l => (l.shard, l.offset)) =
      .ok (0, SEGMENT_SIZE) ∧
      ((0 : Nat), SEGMENT_SIZE) ≠ ((1 : Nat), (0 : Nat)) := by
  constructor
  · rfl
  · decide

/-- C9 (witness): both halves of the amended rotation behaviour at
concrete stores — no rotation at offset `SEGMENT_SIZE`, rotation at
offset `SEGMENT_SIZE + 1`. -/
theorem C9_witness :
    (writeBlob c9Store [107] [1]).1.map (fun l => (l.shard, l.offset)) =
      .ok (0, SEGMENT_SIZE) ∧
    (writeBlob { c9Store with currentOffset := SEGMENT_SIZE + 1 } [107]
        [1]).1.map (fun l => (l.shard, l.offset)) = .ok (1, 0) :=
  ⟨(C9_rotation c9Store [107] [1]).1 (by norm_num [c9Store]),
   (C9_rotation { c9Store with currentOffset := SEGMENT_SIZE + 1 } [107]
     [1]).2 (by norm_num [c9Store]) (by norm_num [c9Store, MAX_SEGMENTS])⟩

/-- C10 (confirmed): when a rotation would advance the segment number to
`MAX_SEGMENTS = 1000` or beyond (current offset past `SEGMENT_SIZE` with
999 or more segments already in use), `put` returns
`Internal("Max segments reached")` and writes no segment record — the
segment files are untouched (the WAL append and the in-memory cursor
mutation have already happened, as in the code). -/
theorem C10_max_segments (st : BlobStore) (key value : List Nat)
    (h1 : SEGMENT_SIZE < st.currentOffset)
    (h2 : MAX_SEGMENTS ≤ st.currentSegment + 1) :
    (st.put key value).1 = .error (.internal "Max segments reached") ∧
      (st.put key value).2.segments = st.segments := by
  constructor <;> simp [BlobStore.put, putWithTtl, writeBlob, h1, h2]

set_option maxRecDepth 100000 in
/-- C10 (witness): the cap at a concrete store — the put errors and the
segment map is unchanged. -/
theorem C10_max_segments_witness :
    (c10Store.put [107] [1]).1 = .error (.internal "Max segments reached") ∧
      (c10Store.put [107] [1]).2.segments = c10Store.segments :=
  C10_max_segments c10Store [107] [1] (by norm_num [c10Store])
    (by norm_num [c10Store, MAX_SEGMENTS])

set_option maxRecDepth 100000 in
/-- C2: at the failing input `put(k,v); delete(k); close; open` with no
snapshot file, the code's `open` replays the WAL DELETE against the still
empty index and then rescans the segments, re-inserting the deleted key —
`k` is present in the reconstructed index (resurrected), whereas the
spec-ordered recovery (scan first, then apply WAL deletes) leaves `k`
absent. -/
theorem C2_delete_resurrected :
    (openStoreIndex Option.none c2Wal c2Segs).map (fun r => lookupIdx r.1 [107]) =
      .ok (some { shard := 0, offset := 0, size := 1,
                  blake3 := blake3_hash [107], expiresAt := Option.none }) ∧
      (specRecoverIndex c2Wal c2Segs).map (fun idx => lookupIdx idx [107]) =
        .ok Option.none := by
  constructor
  · rfl
  · rfl

/-- C3: `compact` renames the data directory to
`data_path/compact_backup`, a path strictly inside the directory being
renamed, so the first rename of the swap always fails and `compact`
returns an error without ever committing — there is no atomic commit
point and the repository's own `test_compaction`
(`store.compact().unwrap()`) cannot pass. -/
theorem C3_compact_swap_always_fails (dataPath : FsPath) (fs : List FsPath) :
    compactSwap dataPath fs = .error .invalidArgument := by
  unfold compactSwap renameFs
  rw [if_pos]
  unfold strictUnder
  simp

/-- C4 (counterexample): the vote is granted to a candidate whose log is
strictly less up-to-date than the receiver's — the log-recency condition
of the claim is not enforced by `handle_request_vote`. -/
theorem C4_counterexample :
    (handleRequestVote c4St c4Req).1.voteGranted = true ∧
      ¬ logUpToDate c4Req c4St.log := by
  constructor
  · rfl
  · intro h
    rcases h with h | h
    · simp [c4Req, c4St, logUpToDate] at h
    · simp [c4Req, c4St, logUpToDate] at h

/-- C4 (amended): for a request whose term is at least the receiver's,
the vote is granted iff the request's term is strictly higher (which
clears `voted_for`) or `voted_for` is `None` or already this candidate;
the candidate's log recency is not examined at all. -/
theorem C4_vote_granted_iff (st : RaftState) (req : VoteRequest)
    (h : st.term ≤ req.term) :
    (handleRequestVote st req).1.voteGranted = true ↔
      (st.term < req.term ∨ st.votedFor = Option.none ∨
        st.votedFor = some req.candidateId) := by
  unfold handleRequestVote
  rw [if_neg (by omega)]
  by_cases hc : st.term < req.term
  · simp [hc]
  · simp only [if_neg hc]
    split
    · next hv => simp [hv, hc]
    · next hv =>
      simp only [hc, false_or]
      constructor
      · intro hfalse; exact absurd hfalse (by simp)
      · intro hor; exact absurd hor hv

/-- C4 (witness): the amended criterion at a concrete state — an
equal-term request at a node that already voted for a different candidate
is refused. -/
theorem C4_vote_granted_iff_witness :
    (handleRequestVote { term := 3, votedFor := some "a", log := [] }
        { term := 3, candidateId := "b", lastLogIndex := 0,
          lastLogTerm := 0 }).1.voteGranted = true ↔
      ((3 : Nat) < 3 ∨ (some "a" : Option String) = Option.none ∨
        (some "a" : Option String) = some "b") :=
  C4_vote_granted_iff { term := 3, votedFor := some "a", log := [] }
    { term := 3, candidateId := "b", lastLogIndex := 0, lastLogTerm := 0 }
    (le_refl 3)

/-- C5 (amended): `prepare` performs NO verification — it replies
`ok = true` unconditionally, records the upload with an empty buffer, and
leaves the blob store untouched; the size and BLAKE3 checks happen only
at `commit`, which replies not-ok and leaves the blob store unmodified
when the buffered bytes fail either check. -/
theorem C5_prepare_always_ok :
    (∀ (uploads : Uploads) (store : BlobStore) (req : PrepareRequest),
      (prepare uploads store req).1.ok = true ∧
      (prepare uploads store req).2.2 = store ∧
      (prepare uploads store req).2.1 = insertUpload uploads req.uploadId
        { key := req.key, expectedSize := req.expectedSize,
          expectedBlake3 := req.expectedBlake3, data := [] }) ∧
    (∀ (uploads : Uploads) (store : BlobStore) (req : CommitRequest)
        (state : UploadState),
      lookupUpload uploads req.uploadId = some state →
      state.data.length ≠ state.expectedSize →
      (commit uploads store req).1.ok = false ∧
      (commit uploads store req).2.2 = store) ∧
    (∀ (uploads : Uploads) (store : BlobStore) (req : CommitRequest)
        (state : UploadState),
      lookupUpload uploads req.uploadId = some state →
      state.data.length = state.expectedSize →
      blake3_hash state.data ≠ state.expectedBlake3 →
      (commit uploads store req).1.ok = false ∧
      (commit uploads store req).2.2 = store) := by
  refine ⟨fun uploads store req => ⟨rfl, rfl, rfl⟩, ?_, ?_⟩
  · intro uploads store req state hlook hsz
    simp [commit, hlook, hsz]
  · intro uploads store req state hlook hsz hhash
    simp [commit, hlook, hsz, hhash]

/-- C5 (counterexample): `prepare` replies OK although the bytes buffered
for the upload (none) have size 0 ≠ 5 and a BLAKE3 digest different from
the expected one — the reply is OK without any verification. -/
theorem C5_counterexample :
    (prepare [] emptyStore c5Req).1.ok = true ∧
      lookupUpload (prepare [] emptyStore c5Req).2.1 "u1" = some c5State ∧
      ([] : List Nat).length ≠ 5 ∧ blake3_hash [] ≠ [97] := by
  refine ⟨rfl, rfl, by norm_num, by decide⟩

/-- C5 (witness): the size-mismatch half of the amended theorem at the
concrete upload recorded by `prepare`: committing it fails and leaves the
store unchanged. -/
theorem C5_witness :
    (commit [("u1", c5State)] emptyStore
        { uploadId := "u1", key := [107] }).1.ok = false ∧
      (commit [("u1", c5State)] emptyStore
        { uploadId := "u1", key := [107] }).2.2 = emptyStore :=
  C5_prepare_always_ok.2.1 [("u1", c5State)] emptyStore
    { uploadId := "u1", key := [107] } c5State rfl (by norm_num [c5State])

theorem insertDesc_length (x : List Nat × Nat) (l : List (List Nat × Nat)) :
    (insertDesc x l).length = l.length + 1 := by
  induction l with
  | nil => rfl
  | cons y rest ih =>
    unfold insertDesc
    split
    · simp
    · simp [ih]

theorem sortDesc_length (l : List (List Nat × Nat)) :
    (sortDesc l).length = l.length := by
  induction l with
  | nil => rfl
  | cons x rest ih => simp [sortDesc, insertDesc_length, ih]

theorem hrw_hash_length (key : List Nat) (nodes : List (List Nat)) :
    (hrw_hash key nodes).length = nodes.length := by
  simp [hrw_hash, sortDesc_length]

theorem select_replicas_length (key : List Nat) (nodes : List (List Nat))
    (n : Nat) : (select_replicas key nodes n).length = min n nodes.length := by
  simp [select_replicas, hrw_hash_length]

/-- C6 (amended): `select_volumes` depends only on the key, the healthy
volume ids, and the replication factor R — two volume lists with the same
healthy projection give the same result — and when R ≤ |healthy| it
returns `Ok` with exactly R volume ids; when 0 < |healthy| < R it returns
`InsufficientReplicas{R, |healthy|}` instead of a shorter list, so the
claimed size `min(R, |V|)` holds only in the R ≤ |V| regime. -/
theorem C6_select_volumes (R : Nat) (key : List Nat)
    (volumes : List VolumeMetadata) :
    (∀ volumes' : List VolumeMetadata, volumes ≠ [] → volumes' ≠ [] →
      healthyIds volumes = healthyIds volumes' →
      select_volumes R key volumes = select_volumes R key volumes') ∧
    (healthyIds volumes ≠ [] → R ≤ (healthyIds volumes).length →
      ∃ sel, select_volumes R key volumes = .ok sel ∧ sel.length = R) ∧
    (healthyIds volumes ≠ [] → (healthyIds volumes).length < R →
      select_volumes R key volumes =
        .error (.insufficientReplicas R (healthyIds volumes).length)) := by
  refine ⟨?_, ?_, ?_⟩
  · intro volumes' hne hne' hsame
    unfold select_volumes
    rw [hsame]
    simp [List.isEmpty_iff, hne, hne']
  · intro hne hR
    have hlen : (select_replicas key (healthyIds volumes) R).length = R := by
      rw [select_replicas_length]
      omega
    have hvne : volumes ≠ [] := by
      intro hc
      exact hne (by simp [hc, healthyIds])
    refine ⟨select_replicas key (healthyIds volumes) R, ?_, hlen⟩
    simp [select_volumes, List.isEmpty_iff, hvne, hne, hlen]
  · intro hne hR
    have hlen : (select_replicas key (healthyIds volumes) R).length =
        (healthyIds volumes).length := by
      rw [select_replicas_length]
      omega
    have hvne : volumes ≠ [] := by
      intro hc
      exact hne (by simp [hc, healthyIds])
    simp [select_volumes, List.isEmpty_iff, hvne, hne, hlen, hR]

/-- C6 (counterexample): with replication factor 3 and a single healthy
volume, `select_volumes` does not return a list of
`min(3, 1) = 1` element — it returns `InsufficientReplicas{3, 1}`. -/
theorem C6_counterexample :
    select_volumes 3 [107] [mkVolume [118]] =
      .error (.insufficientReplicas 3 1) ∧
      ¬ ∃ sel : List (List Nat), select_volumes 3 [107] [mkVolume [118]] =
        .ok sel ∧ sel.length = min 3 1 := by
  constructor
  · rfl
  · rintro ⟨sel, hsel, -⟩
    rw [show select_volumes 3 [107] [mkVolume [118]] =
      .error (.insufficientReplicas 3 1) from rfl] at hsel
    exact absurd hsel (by simp)

/-- C6 (witness): the amended behaviour at concrete inputs — four healthy
volumes with R = 3 yield an `Ok` triple, and a single healthy volume with
R = 3 yields `InsufficientReplicas{3, 1}`. -/
theorem C6_witness :
    (∃ sel, select_volumes 3 [107]
        [mkVolume [118, 49], mkVolume [118, 50], mkVolume [118, 51],
         mkVolume [118, 52]] = .ok sel ∧ sel.length = 3) ∧
      select_volumes 3 [107] [mkVolume [118]] =
        .error (.insufficientReplicas 3 1) :=
  ⟨(C6_select_volumes 3 [107]
      [mkVolume [118, 49], mkVolume [118, 50], mkVolume [118, 51],
       mkVolume [118, 52]]).2.1 (by decide) (by decide),
   by
    have h := (C6_select_volumes 3 [107] [mkVolume [118]]).2.2
      (by decide) (by decide)
    simpa using h⟩

end MiniKV

